import Mathlib

/-!
Verification of the NxN Rubik's-cube state representation and rotation engine
(`rubiks_cube.py`): move vocabulary, face rotation, edge-strip 4-cycle
translation, solved check / reward, reset / shuffle bookkeeping, and move
inference from a state pair.

Conventions of the shallow embedding:
* A face grid is a function `Fin (n+1) → Fin (n+1) → ℕ` (row, column), so the
  grid dimension is `dim = n + 1 ≥ 1`; cell payloads are the color indices
  `0..5` (the engine stores `int64` color indices, `index_colors.values()`).
* The cube (`self.cube`, a numpy array of shape `(6, dim, dim)`) is a function
  `Fin 6 → Grid n`; sides are identified with their indices `index_sides`.
* numpy's in-place mutation of `self.cube` is modelled by explicit state
  passing: each assignment into a face becomes a `Function.update`.
* `np.rot90(m, k=1)` is `rot90` (`new[i][j] = old[j][dim-1-i]`), and
  `np.rot90(m, k=3)` is `rot270` (`new[i][j] = old[dim-1-j][i]`).
-/

/-- The two turn directions of a move code: `'d'` and `'i'`
(`rc_conf.directions`). -/
inductive Direction where
  | d : Direction
  | i : Direction
deriving DecidableEq, Fintype, Repr

/-- The four edges of a face named in the adjacency table: `'r'` (column `-1`),
`'l'` (column `0`), `'u'` (row `0`), `'d'` (row `-1`), as decoded by
`_edge_to_slice` in `RubiksCube._edge_translation`. -/
inductive Edge where
  | r : Edge
  | l : Edge
  | u : Edge
  | d : Edge
deriving DecidableEq, Fintype, Repr

/-- A strip of cells (one row or column of a face), `dim = n + 1` cells. -/
abbrev Strip (n : ℕ) := Fin (n + 1) → ℕ

/-- A face's square grid of color indices. -/
abbrev Grid (n : ℕ) := Fin (n + 1) → Fin (n + 1) → ℕ

/-- The full cube state: one grid per side index (shape `(6, dim, dim)`). -/
abbrev Cube (n : ℕ) := Fin 6 → Grid n

/-- `np.rot90(matrix, k=1)`: quarter turn, `new[i][j] = old[j][dim-1-i]`. -/
def rot90 {n : ℕ} (m : Grid n) : Grid n := fun a b => m b a.rev

/-- `np.rot90(matrix, k=3)`: quarter turn the other way,
`new[i][j] = old[dim-1-j][i]`. -/
def rot270 {n : ℕ} (m : Grid n) : Grid n := fun a b => m b.rev a

/-- `RubiksCube._rotate_helper`: direction `'d'` is `np.rot90(matrix, k=1)`,
direction `'i'` is `np.rot90(matrix, k=3)`. -/
def rotate_helper {n : ℕ} : Direction → Grid n → Grid n
  | Direction.d, m => rot90 m
  | Direction.i, m => rot270 m

/-- Reading the edge slice `side_matrix_a[_edge_to_slice(edge_a)]`. -/
def edgeRead {n : ℕ} (m : Grid n) : Edge → Strip n
  | Edge.r => fun a => m a (Fin.last n)
  | Edge.l => fun a => m a 0
  | Edge.u => fun a => m 0 a
  | Edge.d => fun a => m (Fin.last n) a

/-- Assigning the edge slice `side_matrix_b[_edge_to_slice(edge_b)] = v`. -/
def edgeWrite {n : ℕ} (m : Grid n) : Edge → Strip n → Grid n
  | Edge.r, v => fun a b => if b = Fin.last n then v a else m a b
  | Edge.l, v => fun a b => if b = 0 then v a else m a b
  | Edge.u, v => fun a b => if a = 0 then v b else m a b
  | Edge.d, v => fun a b => if a = Fin.last n then v b else m a b

/-- The strip reversal `edge_array_a[::-1]`. -/
def revStrip {n : ℕ} (v : Strip n) : Strip n := fun a => v a.rev

/-- Reverse a strip when the flag is set (the conditional
`if (edge_a, edge_b) in self.connexions[side]['inversions']`). -/
def condRev {n : ℕ} (b : Bool) (v : Strip n) : Strip n :=
  if b then revStrip v else v

/-- Membership test of an `(edge_a, edge_b)` pair in an `inversions` table. -/
def invFlag (inv : List (Edge × Edge)) (p q : Edge) : Bool :=
  decide ((p, q) ∈ inv)

/-- One side's entry of the adjacency configuration
(`rc_conf.connexions[side]`): the ordered neighbor list `'sides'`, the
parallel edge list `'edges'`, and the `'inversions'` pair set. -/
structure Connexion where
  sides : List (Fin 6)
  edges : List Edge
  inversions : List (Edge × Edge)

/-- Modelled from the spec: the static topology table `rc_conf.connexions` of
the configuration module `rubiks_cube_config`, which is not part of the
sources. Per the spec (§3 AdjacencyRule, §4.2) each face has an ordered cyclic
list of the 4 neighbor strips receiving the displaced strips — the walk in
`_rotate` iterates consecutive pairs, so the list closes the cycle by
repeating its first entry — together with per-pair reversal flags encoding
the geometric twist; the table is self-inverse under direction flip. Sides
are indexed in the order Up, Down, Front, Back, Left, Right (`0..5`), one
color index per side. -/
def connexions (s : Fin 6) : Connexion :=
  match s.val with
  | 0 => ⟨[2, 5, 3, 4, 2], [Edge.u, Edge.u, Edge.u, Edge.u, Edge.u], []⟩
  | 1 => ⟨[2, 4, 3, 5, 2], [Edge.d, Edge.d, Edge.d, Edge.d, Edge.d], []⟩
  | 2 => ⟨[0, 4, 1, 5, 0], [Edge.d, Edge.r, Edge.u, Edge.l, Edge.d],
          [(Edge.l, Edge.u), (Edge.u, Edge.l), (Edge.r, Edge.d), (Edge.d, Edge.r)]⟩
  | 3 => ⟨[0, 5, 1, 4, 0], [Edge.u, Edge.r, Edge.d, Edge.l, Edge.u],
          [(Edge.u, Edge.l), (Edge.l, Edge.u), (Edge.d, Edge.r), (Edge.r, Edge.d)]⟩
  | 4 => ⟨[0, 3, 1, 2, 0], [Edge.l, Edge.r, Edge.l, Edge.l, Edge.l],
          [(Edge.l, Edge.r), (Edge.r, Edge.l)]⟩
  | _ => ⟨[0, 2, 1, 3, 0], [Edge.r, Edge.r, Edge.r, Edge.l, Edge.r],
          [(Edge.r, Edge.l), (Edge.l, Edge.r)]⟩

/-- The loop of `RubiksCube._rotate`: for consecutive pairs of the (possibly
reversed) neighbor list, `_edge_translation` reads the strip vacated by the
first face (only on the first iteration — afterwards the evicted strip of
the previous iteration is passed as `input_array`), reverses it when the
`(edge_a, edge_b)` pair is flagged in `inversions`, saves the receiving
face's current strip, and overwrites it. -/
def edge_walk {n : ℕ} (inv : List (Edge × Edge)) :
    Cube n → List (Fin 6 × Edge) → Option (Strip n) → Cube n
  | cube, (a, ea) :: (b, eb) :: rest, input =>
      edge_walk inv
        (Function.update cube b
          (edgeWrite (cube b) eb
            (condRev (invFlag inv ea eb) (input.getD (edgeRead (cube a) ea)))))
        ((b, eb) :: rest)
        (some (edgeRead (cube b) eb))
  | cube, _, _ => cube

/-- `RubiksCube._rotate` for one side's connexion entry: rotate the side's own
grid with `_rotate_helper`, then walk the neighbor cycle; for direction `'i'`
the `'sides'` and `'edges'` lists are walked reversed. -/
def rotateGen {n : ℕ} (conn : Connexion) (side : Fin 6) (dir : Direction)
    (cube : Cube n) : Cube n :=
  let ss := if dir = Direction.i then conn.sides.reverse else conn.sides
  let es := if dir = Direction.i then conn.edges.reverse else conn.edges
  edge_walk conn.inversions
    (Function.update cube side (rotate_helper dir (cube side)))
    (ss.zip es) none

/-- A validated move value: `(side, direction)` (the engine-facing form of
`RubiksAction.action`, with the side symbol replaced by its `index_sides`
index). -/
structure RubiksAction where
  side : Fin 6
  direction : Direction
deriving DecidableEq, Fintype, Repr

/-- `RubiksAction.get_inverse_action`: same side, direction flipped
(`'d'` if the direction is `'i'` else `'i'`). -/
def get_inverse_action (a : RubiksAction) : RubiksAction :=
  ⟨a.side, match a.direction with
           | Direction.i => Direction.d
           | Direction.d => Direction.i⟩

/-- The state transformation of `RubiksCube._rotate(action)` (counter and
printing aside). -/
def rotate {n : ℕ} (cube : Cube n) (act : RubiksAction) : Cube n :=
  rotateGen (connexions act.side) act.side act.direction cube

/-- `RubiksCube._construct_cube`: face `index` uniformly filled with color
`index`. -/
def construct_cube (n : ℕ) : Cube n := fun f _ _ => f.val

/-- `RubiksCube._get_reward`: `1` when every cell of every face `i` equals
`i`, else `-1`. -/
def get_reward {n : ℕ} (cube : Cube n) : Int :=
  if ∀ (f : Fin 6) (a b : Fin (n + 1)), cube f a b = f.val then 1 else -1

/-- `RubiksCube.is_resolved`: `True` iff the reward is `1`. -/
def is_resolved {n : ℕ} (cube : Cube n) : Bool :=
  get_reward cube == 1

/-- The mutable state owned by a `RubiksCube` engine: the cube array and the
move counter. -/
structure RubiksCube (n : ℕ) where
  cube : Cube n
  counter : ℕ

/-- `RubiksCube.step`: rotate (which increments the counter), then return the
state, the reward and the done flag. -/
def step {n : ℕ} (s : RubiksCube n) (act : RubiksAction) :
    RubiksCube n × Int × Bool :=
  let c := rotate s.cube act
  (⟨c, s.counter + 1⟩, get_reward c, is_resolved c)

/-- `RubiksCube.shuffle_cube`: apply each (randomly drawn) move with
`_rotate` — which increments the counter — and immediately reset the counter
to `0`; the random draws are passed in as an explicit list. -/
def shuffle_cube {n : ℕ} (s : RubiksCube n) (moves : List RubiksAction) :
    RubiksCube n :=
  moves.foldl (fun t a => ⟨rotate t.cube a, 0⟩) s

/-- `RubiksCube.reset`: rebuild the solved cube; the counter field is not
touched by `reset` itself. When `shuffle` is set, `shuffle_cube` runs with
the given random moves. -/
def reset {n : ℕ} (s : RubiksCube n) (doShuffle : Bool)
    (moves : List RubiksAction) : RubiksCube n :=
  if doShuffle then shuffle_cube ⟨construct_cube n, s.counter⟩ moves
  else ⟨construct_cube n, s.counter⟩

/-- `self.actions = [side+direction for side, direction in
product(self.sides, self.directions)]`: side-major, direction-minor, in
configuration declaration order (directions declared `['d', 'i']`, modelled
from the spec since the configuration module is not in the sources). -/
def actionsList : List RubiksAction :=
  (List.finRange 6).flatMap (fun s => [⟨s, Direction.d⟩, ⟨s, Direction.i⟩])

instance {ε α : Type} [DecidableEq ε] [DecidableEq α] : DecidableEq (Except ε α) :=
  fun x y =>
    match x, y with
    | Except.ok a, Except.ok b =>
        if h : a = b then Decidable.isTrue (by rw [h])
        else Decidable.isFalse (fun hh => h (Except.ok.inj hh))
    | Except.error a, Except.error b =>
        if h : a = b then Decidable.isTrue (by rw [h])
        else Decidable.isFalse (fun hh => h (Except.error.inj hh))
    | Except.ok _, Except.error _ => Decidable.isFalse (fun hh => Except.noConfusion hh)
    | Except.error _, Except.ok _ => Decidable.isFalse (fun hh => Except.noConfusion hh)

/-- `RubiksCube.get_action_from_two_states`: try each action in `actions`
order on a copy of the first state and return the first one whose result
equals the second state (`np.array_equal`), `None` when none matches.
The per-candidate copy is built by `RubiksCube(cube=rubiks_1.cube)` — with
the default `dim=3` — so for any other dimension the shape check
`cube.shape == (6, 3, 3)` fails, `self.cube` is never assigned, and the
subsequent `step` raises `AttributeError`; that crash is the `.error`
branch. -/
def get_action_from_two_states {n : ℕ} (s1 s2 : Cube n) :
    Except String (Option RubiksAction) :=
  if n + 1 = 3 then
    Except.ok (actionsList.find? (fun a => decide (rotate s1 a = s2)))
  else
    Except.error "AttributeError"

/-- Modelled from the spec: the face symbols `rc_conf.sides` of the missing
configuration module, in declaration order Up, Down, Front, Back, Left,
Right (the spec's §8 example uses `"Ui"`/`"Ud"` codes). -/
def sideSymbols : List Char := ['U', 'D', 'F', 'B', 'L', 'R']

/-- Modelled from the spec: the direction symbols `rc_conf.directions` of the
missing configuration module (`'d'` and `'i'` are hardcoded in
`get_inverse_action` and `_rotate_helper`). -/
def directionSymbols : List Char := ['d', 'i']

/-- `RubiksAction._load_action`: a two-character code whose characters are in
the configured alphabets parses to its `(side, direction)` pair; anything
else prints `'Unknown action!'` and returns `None`. -/
def load_action (code : List Char) : Option (Char × Char) :=
  match code with
  | [c1, c2] =>
      if c1 ∈ sideSymbols ∧ c2 ∈ directionSymbols then some (c1, c2) else none
  | _ => none

/-- The result of `RubiksAction.__init__(action=code)`: the object always
comes back, its `action` attribute holding the parse result (possibly
`None`). -/
structure RubiksActionRaw where
  action : Option (Char × Char)

/-- `RubiksAction(action=code)` for a string code. -/
def mk_rubiks_action (code : List Char) : RubiksActionRaw :=
  ⟨load_action code⟩

/-- A numpy array, reduced to its shape and its lookup function. -/
structure NDArray where
  shape : List ℕ
  item : List ℕ → ℕ

/-- `np.argmax` over a length-6 axis: the first index attaining the
maximum. -/
def argmax6 (v : Fin 6 → ℕ) : ℕ :=
  ((List.finRange 6).foldl (fun best k => if v best < v k then k else best) 0).val

/-- `RubiksCube.from_one_hot_cube`: `np.argmax(cube, axis=-1)` — drop the
last (one-hot) axis, decoding each cell to the arg-max color index. -/
def from_one_hot_cube (a : NDArray) : NDArray :=
  ⟨a.shape.dropLast, fun idx => argmax6 (fun k => a.item (idx ++ [k.val]))⟩

/-- The `cube` argument dispatch of `RubiksCube.__init__`: shape
`(6, dim, dim)` is copied as-is, shape `(6, dim, dim, 6)` is decoded with
`from_one_hot_cube`, and any other shape prints `'Incorrect cube format!'`
and leaves `self.cube` unset (`none`) — no exception is raised. `6` is
`len(rc_conf.colors)`. -/
def init_cube_arg (dim : ℕ) (a : NDArray) : Option NDArray :=
  if a.shape = [6, dim, dim] then some ⟨a.shape, a.item⟩
  else if a.shape = [6, dim, dim, 6] then some (from_one_hot_cube a)
  else none

/-- The same-type branch of `RubiksCube.__eq__`: `self.cube == other.cube` on
numpy arrays is the ELEMENTWISE comparison array, not a boolean. -/
def eq_elementwise {n : ℕ} (c1 c2 : Cube n) :
    Fin 6 → Fin (n + 1) → Fin (n + 1) → Bool :=
  fun f a b => c1 f a b == c2 f a b

/-- The multiset of the colors of all cells of all 6 faces. -/
def cells {n : ℕ} (cube : Cube n) : Multiset ℕ :=
  (Finset.univ : Finset (Fin 6 × Fin (n + 1) × Fin (n + 1))).val.map
    (fun p => cube p.1 p.2.1 p.2.2)

/-- The net effect of one `_rotate` call whose connexion cycle is
`[a, b, c, d, a]` with edges `[ea, eb, ec, ed, ea]`: each face of the cycle
receives its predecessor's vacated strip (reversed when flagged), the rotated
side's grid is transformed by `rotfn`, and everything else is untouched.
The walk of `_rotate` is proved equal to this closed form below. -/
def cycleResult {n : ℕ} (inv : List (Edge × Edge)) (cube : Cube n)
    (side a b c d : Fin 6) (ea eb ec ed : Edge) (rotfn : Grid n → Grid n) :
    Cube n :=
  fun f =>
    if f = a then
      edgeWrite (cube a) ea (condRev (invFlag inv ed ea) (edgeRead (cube d) ed))
    else if f = b then
      edgeWrite (cube b) eb (condRev (invFlag inv ea eb) (edgeRead (cube a) ea))
    else if f = c then
      edgeWrite (cube c) ec (condRev (invFlag inv eb ec) (edgeRead (cube b) eb))
    else if f = d then
      edgeWrite (cube d) ed (condRev (invFlag inv ec ed) (edgeRead (cube c) ec))
    else if f = side then rotfn (cube side)
    else cube f

/-- Apply a color map to every cell of a strip. -/
def mapStrip {n : ℕ} (g : ℕ → ℕ) (v : Strip n) : Strip n := fun a => g (v a)

/-- Apply a color map to every cell of a grid. -/
def mapGrid {n : ℕ} (g : ℕ → ℕ) (m : Grid n) : Grid n := fun a b => g (m a b)

/-- Apply a color map to every cell of the cube. -/
def mapCube {n : ℕ} (g : ℕ → ℕ) (cube : Cube n) : Cube n :=
  fun f a b => g (cube f a b)

/-- Injectively encode a cell position as a natural number. -/
def encodePos (n : ℕ) (p : Fin 6 × Fin (n + 1) × Fin (n + 1)) : ℕ :=
  p.1.val + 6 * (p.2.1.val + (n + 1) * p.2.2.val)

/-- Decode a cell position code (left inverse of `encodePos`). -/
def decodePos (n : ℕ) (k : ℕ) : Fin 6 × Fin (n + 1) × Fin (n + 1) :=
  (⟨k % 6, Nat.mod_lt _ (by omega)⟩,
   ⟨k / 6 % (n + 1), Nat.mod_lt _ (Nat.succ_pos n)⟩,
   ⟨k / 6 / (n + 1) % (n + 1), Nat.mod_lt _ (Nat.succ_pos n)⟩)

/-- The cube whose cell colors are the codes of their own positions. -/
def posCube (n : ℕ) : Cube n := fun f a b => encodePos n (f, a, b)

/-- The cell-position permutation performed by `_rotate` for a move: the new
value at position `p` is the old value at position `sigmaAct n act p`. -/
def sigmaAct (n : ℕ) (act : RubiksAction)
    (p : Fin 6 × Fin (n + 1) × Fin (n + 1)) :
    Fin 6 × Fin (n + 1) × Fin (n + 1) :=
  decodePos n (rotate (posCube n) act p.1 p.2.1 p.2.2)

/-- The row of the cell of an edge slice at strip index `0`. -/
def ecRow (n : ℕ) : Edge → Fin (n + 1)
  | Edge.d => Fin.last n
  | _ => 0

/-- The column of the cell of an edge slice at strip index `0`. -/
def ecCol (n : ℕ) : Edge → Fin (n + 1)
  | Edge.r => Fin.last n
  | _ => 0

/-! ### Basic laws of the strip and grid primitives -/

theorem revStrip_revStrip {n : ℕ} (v : Strip n) : revStrip (revStrip v) = v := by
  funext a
  simp [revStrip]

theorem condRev_false {n : ℕ} (v : Strip n) : condRev false v = v := rfl

theorem condRev_condRev {n : ℕ} (b1 b2 : Bool) (v : Strip n) :
    condRev b1 (condRev b2 v) = condRev (Bool.xor b1 b2) v := by
  cases b1 <;> cases b2 <;> simp [condRev, revStrip_revStrip]

theorem edgeRead_edgeWrite {n : ℕ} (m : Grid n) (e : Edge) (v : Strip n) :
    edgeRead (edgeWrite m e v) e = v := by
  cases e <;> funext a <;> simp [edgeRead, edgeWrite]

theorem edgeWrite_edgeWrite {n : ℕ} (m : Grid n) (e : Edge) (v w : Strip n) :
    edgeWrite (edgeWrite m e w) e v = edgeWrite m e v := by
  cases e <;> funext a b <;> simp only [edgeWrite] <;> split <;> simp_all

theorem edgeWrite_edgeRead {n : ℕ} (m : Grid n) (e : Edge) :
    edgeWrite m e (edgeRead m e) = m := by
  cases e <;> funext a b <;> simp only [edgeWrite, edgeRead] <;> split <;> simp_all

theorem rot270_rot90 {n : ℕ} (m : Grid n) : rot270 (rot90 m) = m := by
  funext a b
  simp [rot270, rot90]

theorem rot90_rot270 {n : ℕ} (m : Grid n) : rot90 (rot270 m) = m := by
  funext a b
  simp [rot270, rot90]

theorem rot90_four {n : ℕ} (m : Grid n) :
    rot90 (rot90 (rot90 (rot90 m))) = m := by
  funext a b
  simp [rot90]

theorem rot270_four {n : ℕ} (m : Grid n) :
    rot270 (rot270 (rot270 (rot270 m))) = m := by
  funext a b
  simp [rot270]

theorem edgeRead_const {n : ℕ} (k : ℕ) (e : Edge) :
    edgeRead ((fun _ _ => k) : Grid n) e = fun _ => k := by
  cases e <;> rfl

theorem condRev_const {n : ℕ} (fl : Bool) (k : ℕ) :
    condRev fl ((fun _ => k) : Strip n) = fun _ => k := by
  cases fl <;> rfl

theorem edgeWrite_cell {n : ℕ} (m : Grid n) (e : Edge) (v : Strip n) :
    edgeWrite m e v (ecRow n e) (ecCol n e) = v 0 := by
  cases e <;> simp [edgeWrite, ecRow, ecCol]

/-! ### The edge-strip walk of `_rotate` in closed form -/

theorem edge_walk_cons {n : ℕ} (inv : List (Edge × Edge)) (cube : Cube n)
    (a b : Fin 6) (ea eb : Edge) (rest : List (Fin 6 × Edge))
    (input : Option (Strip n)) :
    edge_walk inv cube ((a, ea) :: (b, eb) :: rest) input
      = edge_walk inv
          (Function.update cube b
            (edgeWrite (cube b) eb
              (condRev (invFlag inv ea eb) (input.getD (edgeRead (cube a) ea)))))
          ((b, eb) :: rest)
          (some (edgeRead (cube b) eb)) := by
  rw [edge_walk]

theorem edge_walk_single {n : ℕ} (inv : List (Edge × Edge)) (cube : Cube n)
    (x : Fin 6 × Edge) (input : Option (Strip n)) :
    edge_walk inv cube [x] input = cube := by
  obtain ⟨a, ea⟩ := x
  rfl

theorem cycleResult_a {n : ℕ} (inv : List (Edge × Edge)) (cube : Cube n)
    (side a b c d : Fin 6) (ea eb ec ed : Edge) (rotfn : Grid n → Grid n) :
    cycleResult inv cube side a b c d ea eb ec ed rotfn a
      = edgeWrite (cube a) ea (condRev (invFlag inv ed ea) (edgeRead (cube d) ed)) := by
  simp [cycleResult]

theorem cycleResult_b {n : ℕ} (inv : List (Edge × Edge)) (cube : Cube n)
    (side a b c d : Fin 6) (ea eb ec ed : Edge) (rotfn : Grid n → Grid n)
    (hba : b ≠ a) :
    cycleResult inv cube side a b c d ea eb ec ed rotfn b
      = edgeWrite (cube b) eb (condRev (invFlag inv ea eb) (edgeRead (cube a) ea)) := by
  simp [cycleResult, hba]

theorem cycleResult_c {n : ℕ} (inv : List (Edge × Edge)) (cube : Cube n)
    (side a b c d : Fin 6) (ea eb ec ed : Edge) (rotfn : Grid n → Grid n)
    (hca : c ≠ a) (hcb : c ≠ b) :
    cycleResult inv cube side a b c d ea eb ec ed rotfn c
      = edgeWrite (cube c) ec (condRev (invFlag inv eb ec) (edgeRead (cube b) eb)) := by
  simp [cycleResult, hca, hcb]

theorem cycleResult_d {n : ℕ} (inv : List (Edge × Edge)) (cube : Cube n)
    (side a b c d : Fin 6) (ea eb ec ed : Edge) (rotfn : Grid n → Grid n)
    (hda : d ≠ a) (hdb : d ≠ b) (hdc : d ≠ c) :
    cycleResult inv cube side a b c d ea eb ec ed rotfn d
      = edgeWrite (cube d) ed (condRev (invFlag inv ec ed) (edgeRead (cube c) ec)) := by
  simp [cycleResult, hda, hdb, hdc]

theorem cycleResult_side {n : ℕ} (inv : List (Edge × Edge)) (cube : Cube n)
    (side a b c d : Fin 6) (ea eb ec ed : Edge) (rotfn : Grid n → Grid n)
    (hsa : side ≠ a) (hsb : side ≠ b) (hsc : side ≠ c) (hsd : side ≠ d) :
    cycleResult inv cube side a b c d ea eb ec ed rotfn side = rotfn (cube side) := by
  simp [cycleResult, hsa, hsb, hsc, hsd]

theorem cycleResult_other {n : ℕ} (inv : List (Edge × Edge)) (cube : Cube n)
    (side a b c d : Fin 6) (ea eb ec ed : Edge) (rotfn : Grid n → Grid n)
    (f : Fin 6) (hfa : f ≠ a) (hfb : f ≠ b) (hfc : f ≠ c) (hfd : f ≠ d)
    (hfs : f ≠ side) :
    cycleResult inv cube side a b c d ea eb ec ed rotfn f = cube f := by
  simp [cycleResult, hfa, hfb, hfc, hfd, hfs]

theorem rotateGen_eq_d {n : ℕ} (inv : List (Edge × Edge)) (side a b c d : Fin 6)
    (ea eb ec ed : Edge) (cube : Cube n)
    (hsa : side ≠ a) (hsb : side ≠ b) (hsc : side ≠ c) (hsd : side ≠ d)
    (hab : a ≠ b) (hac : a ≠ c) (had : a ≠ d)
    (hbc : b ≠ c) (hbd : b ≠ d) (hcd : c ≠ d) :
    rotateGen ⟨[a, b, c, d, a], [ea, eb, ec, ed, ea], inv⟩ side Direction.d cube
      = cycleResult inv cube side a b c d ea eb ec ed rot90 := by
  funext f
  show edge_walk inv (Function.update cube side (rot90 (cube side)))
      [(a, ea), (b, eb), (c, ec), (d, ed), (a, ea)] none f = _
  rw [edge_walk_cons, edge_walk_cons, edge_walk_cons, edge_walk_cons,
    edge_walk_single]
  simp only [Option.getD_some, Option.getD_none,
    Function.update_noteq (Ne.symm hsa), Function.update_noteq (Ne.symm hsb),
    Function.update_noteq (Ne.symm hsc), Function.update_noteq (Ne.symm hsd),
    Function.update_noteq hab, Function.update_noteq (Ne.symm hbc),
    Function.update_noteq (Ne.symm hbd), Function.update_noteq hac,
    Function.update_noteq (Ne.symm hcd), Function.update_noteq had]
  by_cases hfa : f = a
  · subst hfa
    simp [cycleResult, Function.update_same]
  by_cases hfb : f = b
  · subst hfb
    simp [cycleResult, hfa, hbd, hbc, Function.update_same,
      Function.update_noteq hfa, Function.update_noteq hbd,
      Function.update_noteq hbc]
  by_cases hfc : f = c
  · subst hfc
    simp [cycleResult, hfa, hfb, hcd, Function.update_same,
      Function.update_noteq hfa, Function.update_noteq hcd]
  by_cases hfd : f = d
  · subst hfd
    simp [cycleResult, hfa, hfb, hfc, Function.update_same,
      Function.update_noteq hfa]
  by_cases hfs : f = side
  · subst hfs
    simp [cycleResult, hsa, hsb, hsc, hsd, Function.update_same,
      Function.update_noteq hsa, Function.update_noteq hsb,
      Function.update_noteq hsc, Function.update_noteq hsd]
  · simp [cycleResult, hfa, hfb, hfc, hfd, hfs,
      Function.update_noteq hfa, Function.update_noteq hfb,
      Function.update_noteq hfc, Function.update_noteq hfd,
      Function.update_noteq hfs]

theorem rotateGen_eq_i {n : ℕ} (inv : List (Edge × Edge)) (side a b c d : Fin 6)
    (ea eb ec ed : Edge) (cube : Cube n)
    (hsa : side ≠ a) (hsb : side ≠ b) (hsc : side ≠ c) (hsd : side ≠ d)
    (hab : a ≠ b) (hac : a ≠ c) (had : a ≠ d)
    (hbc : b ≠ c) (hbd : b ≠ d) (hcd : c ≠ d) :
    rotateGen ⟨[a, b, c, d, a], [ea, eb, ec, ed, ea], inv⟩ side Direction.i cube
      = cycleResult inv cube side a d c b ea ed ec eb rot270 := by
  funext f
  show edge_walk inv (Function.update cube side (rot270 (cube side)))
      [(a, ea), (d, ed), (c, ec), (b, eb), (a, ea)] none f = _
  rw [edge_walk_cons, edge_walk_cons, edge_walk_cons, edge_walk_cons,
    edge_walk_single]
  simp only [Option.getD_some, Option.getD_none,
    Function.update_noteq (Ne.symm hsa), Function.update_noteq (Ne.symm hsb),
    Function.update_noteq (Ne.symm hsc), Function.update_noteq (Ne.symm hsd),
    Function.update_noteq hcd, Function.update_noteq hbc,
    Function.update_noteq hbd, Function.update_noteq hab,
    Function.update_noteq hac, Function.update_noteq had]
  by_cases hfa : f = a
  · subst hfa
    simp [cycleResult, Function.update_same]
  by_cases hfd : f = d
  · subst hfd
    simp [cycleResult, hfa, Function.update_same, Function.update_noteq hfa,
      Function.update_noteq (Ne.symm hbd), Function.update_noteq (Ne.symm hcd)]
  by_cases hfc : f = c
  · subst hfc
    simp [cycleResult, hfa, hfd, Function.update_same,
      Function.update_noteq hfa, Function.update_noteq (Ne.symm hbc)]
  by_cases hfb : f = b
  · subst hfb
    simp [cycleResult, hfa, hfd, hfc, Function.update_same,
      Function.update_noteq hfa]
  by_cases hfs : f = side
  · subst hfs
    simp [cycleResult, hsa, hsb, hsc, hsd, Function.update_same,
      Function.update_noteq hsa, Function.update_noteq hsb,
      Function.update_noteq hsc, Function.update_noteq hsd]
  · simp [cycleResult, hfa, hfb, hfc, hfd, hfs,
      Function.update_noteq hfa, Function.update_noteq hfb,
      Function.update_noteq hfc, Function.update_noteq hfd,
      Function.update_noteq hfs]

/-! ### Round trip and fourfold iteration of the strip cycle -/

theorem cycle_roundtrip {n : ℕ} (inv : List (Edge × Edge)) (cube : Cube n)
    (side a b c d : Fin 6) (ea eb ec ed : Edge) (rot1 rot2 : Grid n → Grid n)
    (h21 : rot2 (rot1 (cube side)) = cube side)
    (hsa : side ≠ a) (hsb : side ≠ b) (hsc : side ≠ c) (hsd : side ≠ d)
    (hab : a ≠ b) (hac : a ≠ c) (had : a ≠ d)
    (hbc : b ≠ c) (hbd : b ≠ d) (hcd : c ≠ d)
    (s1 : invFlag inv ea eb = invFlag inv eb ea)
    (s2 : invFlag inv eb ec = invFlag inv ec eb)
    (s3 : invFlag inv ec ed = invFlag inv ed ec)
    (s4 : invFlag inv ed ea = invFlag inv ea ed) :
    cycleResult inv (cycleResult inv cube side a b c d ea eb ec ed rot1)
      side a d c b ea ed ec eb rot2 = cube := by
  set G := cycleResult inv cube side a b c d ea eb ec ed rot1 with hG
  have Ga : G a
      = edgeWrite (cube a) ea (condRev (invFlag inv ed ea) (edgeRead (cube d) ed)) :=
    cycleResult_a inv cube side a b c d ea eb ec ed rot1
  have Gb : G b
      = edgeWrite (cube b) eb (condRev (invFlag inv ea eb) (edgeRead (cube a) ea)) :=
    cycleResult_b inv cube side a b c d ea eb ec ed rot1 (Ne.symm hab)
  have Gc : G c
      = edgeWrite (cube c) ec (condRev (invFlag inv eb ec) (edgeRead (cube b) eb)) :=
    cycleResult_c inv cube side a b c d ea eb ec ed rot1 (Ne.symm hac) (Ne.symm hbc)
  have Gd : G d
      = edgeWrite (cube d) ed (condRev (invFlag inv ec ed) (edgeRead (cube c) ec)) :=
    cycleResult_d inv cube side a b c d ea eb ec ed rot1 (Ne.symm had) (Ne.symm hbd)
      (Ne.symm hcd)
  have Gs : G side = rot1 (cube side) :=
    cycleResult_side inv cube side a b c d ea eb ec ed rot1 hsa hsb hsc hsd
  funext f
  by_cases hfa : f = a
  · rw [hfa, cycleResult_a, Gb, edgeRead_edgeWrite, condRev_condRev, s1,
      Bool.xor_self, condRev_false, Ga, edgeWrite_edgeWrite, edgeWrite_edgeRead]
  by_cases hfd : f = d
  · rw [hfd] at hfa ⊢
    rw [cycleResult_b inv G side a d c b ea ed ec eb rot2 hfa, Ga,
      edgeRead_edgeWrite, condRev_condRev, s4, Bool.xor_self, condRev_false,
      Gd, edgeWrite_edgeWrite, edgeWrite_edgeRead]
  by_cases hfc : f = c
  · rw [hfc] at hfa hfd ⊢
    rw [cycleResult_c inv G side a d c b ea ed ec eb rot2 hfa hfd, Gd,
      edgeRead_edgeWrite, condRev_condRev, s3, Bool.xor_self, condRev_false,
      Gc, edgeWrite_edgeWrite, edgeWrite_edgeRead]
  by_cases hfb : f = b
  · rw [hfb] at hfa hfd hfc ⊢
    rw [cycleResult_d inv G side a d c b ea ed ec eb rot2 hfa hfd hfc, Gc,
      edgeRead_edgeWrite, condRev_condRev, s2, Bool.xor_self, condRev_false,
      Gb, edgeWrite_edgeWrite, edgeWrite_edgeRead]
  by_cases hfs : f = side
  · rw [hfs, cycleResult_side inv G side a d c b ea ed ec eb rot2 hsa hsd hsc hsb,
      Gs, h21]
  · rw [cycleResult_other inv G side a d c b ea ed ec eb rot2 f hfa hfd hfc hfb hfs,
      hG, cycleResult_other inv cube side a b c d ea eb ec ed rot1 f hfa hfb hfc hfd hfs]

theorem cycle_four {n : ℕ} (inv : List (Edge × Edge)) (cube : Cube n)
    (side a b c d : Fin 6) (ea eb ec ed : Edge) (rotfn : Grid n → Grid n)
    (h4 : rotfn (rotfn (rotfn (rotfn (cube side)))) = cube side)
    (hsa : side ≠ a) (hsb : side ≠ b) (hsc : side ≠ c) (hsd : side ≠ d)
    (hab : a ≠ b) (hac : a ≠ c) (had : a ≠ d)
    (hbc : b ≠ c) (hbd : b ≠ d) (hcd : c ≠ d)
    (heven : Bool.xor (invFlag inv ea eb) (Bool.xor (invFlag inv eb ec)
      (Bool.xor (invFlag inv ec ed) (invFlag inv ed ea))) = false) :
    cycleResult inv (cycleResult inv (cycleResult inv
        (cycleResult inv cube side a b c d ea eb ec ed rotfn)
        side a b c d ea eb ec ed rotfn)
        side a b c d ea eb ec ed rotfn)
      side a b c d ea eb ec ed rotfn = cube := by
  set G1 := cycleResult inv cube side a b c d ea eb ec ed rotfn with hG1
  set G2 := cycleResult inv G1 side a b c d ea eb ec ed rotfn with hG2
  set G3 := cycleResult inv G2 side a b c d ea eb ec ed rotfn with hG3
  have hA : Bool.xor (Bool.xor (Bool.xor (invFlag inv ed ea) (invFlag inv ec ed))
      (invFlag inv eb ec)) (invFlag inv ea eb) = false := by
    revert heven
    generalize invFlag inv ea eb = x1
    generalize invFlag inv eb ec = x2
    generalize invFlag inv ec ed = x3
    generalize invFlag inv ed ea = x4
    cases x1 <;> cases x2 <;> cases x3 <;> cases x4 <;> decide
  have hB : Bool.xor (Bool.xor (Bool.xor (invFlag inv ea eb) (invFlag inv ed ea))
      (invFlag inv ec ed)) (invFlag inv eb ec) = false := by
    revert heven
    generalize invFlag inv ea eb = x1
    generalize invFlag inv eb ec = x2
    generalize invFlag inv ec ed = x3
    generalize invFlag inv ed ea = x4
    cases x1 <;> cases x2 <;> cases x3 <;> cases x4 <;> decide
  have hC : Bool.xor (Bool.xor (Bool.xor (invFlag inv eb ec) (invFlag inv ea eb))
      (invFlag inv ed ea)) (invFlag inv ec ed) = false := by
    revert heven
    generalize invFlag inv ea eb = x1
    generalize invFlag inv eb ec = x2
    generalize invFlag inv ec ed = x3
    generalize invFlag inv ed ea = x4
    cases x1 <;> cases x2 <;> cases x3 <;> cases x4 <;> decide
  have hD : Bool.xor (Bool.xor (Bool.xor (invFlag inv ec ed) (invFlag inv eb ec))
      (invFlag inv ea eb)) (invFlag inv ed ea) = false := by
    revert heven
    generalize invFlag inv ea eb = x1
    generalize invFlag inv eb ec = x2
    generalize invFlag inv ec ed = x3
    generalize invFlag inv ed ea = x4
    cases x1 <;> cases x2 <;> cases x3 <;> cases x4 <;> decide
  have g1a : G1 a
      = edgeWrite (cube a) ea (condRev (invFlag inv ed ea) (edgeRead (cube d) ed)) :=
    cycleResult_a inv cube side a b c d ea eb ec ed rotfn
  have g1b : G1 b
      = edgeWrite (cube b) eb (condRev (invFlag inv ea eb) (edgeRead (cube a) ea)) :=
    cycleResult_b inv cube side a b c d ea eb ec ed rotfn (Ne.symm hab)
  have g1c : G1 c
      = edgeWrite (cube c) ec (condRev (invFlag inv eb ec) (edgeRead (cube b) eb)) :=
    cycleResult_c inv cube side a b c d ea eb ec ed rotfn (Ne.symm hac) (Ne.symm hbc)
  have g1d : G1 d
      = edgeWrite (cube d) ed (condRev (invFlag inv ec ed) (edgeRead (cube c) ec)) :=
    cycleResult_d inv cube side a b c d ea eb ec ed rotfn (Ne.symm had) (Ne.symm hbd)
      (Ne.symm hcd)
  have g1s : G1 side = rotfn (cube side) :=
    cycleResult_side inv cube side a b c d ea eb ec ed rotfn hsa hsb hsc hsd
  have g2a : G2 a
      = edgeWrite (G1 a) ea (condRev (invFlag inv ed ea) (edgeRead (G1 d) ed)) :=
    cycleResult_a inv G1 side a b c d ea eb ec ed rotfn
  have g2b : G2 b
      = edgeWrite (G1 b) eb (condRev (invFlag inv ea eb) (edgeRead (G1 a) ea)) :=
    cycleResult_b inv G1 side a b c d ea eb ec ed rotfn (Ne.symm hab)
  have g2c : G2 c
      = edgeWrite (G1 c) ec (condRev (invFlag inv eb ec) (edgeRead (G1 b) eb)) :=
    cycleResult_c inv G1 side a b c d ea eb ec ed rotfn (Ne.symm hac) (Ne.symm hbc)
  have g2d : G2 d
      = edgeWrite (G1 d) ed (condRev (invFlag inv ec ed) (edgeRead (G1 c) ec)) :=
    cycleResult_d inv G1 side a b c d ea eb ec ed rotfn (Ne.symm had) (Ne.symm hbd)
      (Ne.symm hcd)
  have g2s : G2 side = rotfn (G1 side) :=
    cycleResult_side inv G1 side a b c d ea eb ec ed rotfn hsa hsb hsc hsd
  have g3a : G3 a
      = edgeWrite (G2 a) ea (condRev (invFlag inv ed ea) (edgeRead (G2 d) ed)) :=
    cycleResult_a inv G2 side a b c d ea eb ec ed rotfn
  have g3b : G3 b
      = edgeWrite (G2 b) eb (condRev (invFlag inv ea eb) (edgeRead (G2 a) ea)) :=
    cycleResult_b inv G2 side a b c d ea eb ec ed rotfn (Ne.symm hab)
  have g3c : G3 c
      = edgeWrite (G2 c) ec (condRev (invFlag inv eb ec) (edgeRead (G2 b) eb)) :=
    cycleResult_c inv G2 side a b c d ea eb ec ed rotfn (Ne.symm hac) (Ne.symm hbc)
  have g3d : G3 d
      = edgeWrite (G2 d) ed (condRev (invFlag inv ec ed) (edgeRead (G2 c) ec)) :=
    cycleResult_d inv G2 side a b c d ea eb ec ed rotfn (Ne.symm had) (Ne.symm hbd)
      (Ne.symm hcd)
  have g3s : G3 side = rotfn (G2 side) :=
    cycleResult_side inv G2 side a b c d ea eb ec ed rotfn hsa hsb hsc hsd
  have r1a : edgeRead (G1 a) ea = condRev (invFlag inv ed ea) (edgeRead (cube d) ed) := by
    rw [g1a, edgeRead_edgeWrite]
  have r1b : edgeRead (G1 b) eb = condRev (invFlag inv ea eb) (edgeRead (cube a) ea) := by
    rw [g1b, edgeRead_edgeWrite]
  have r1c : edgeRead (G1 c) ec = condRev (invFlag inv eb ec) (edgeRead (cube b) eb) := by
    rw [g1c, edgeRead_edgeWrite]
  have r1d : edgeRead (G1 d) ed = condRev (invFlag inv ec ed) (edgeRead (cube c) ec) := by
    rw [g1d, edgeRead_edgeWrite]
  have r2a : edgeRead (G2 a) ea = condRev (invFlag inv ed ea) (edgeRead (G1 d) ed) := by
    rw [g2a, edgeRead_edgeWrite]
  have r2b : edgeRead (G2 b) eb = condRev (invFlag inv ea eb) (edgeRead (G1 a) ea) := by
    rw [g2b, edgeRead_edgeWrite]
  have r2c : edgeRead (G2 c) ec = condRev (invFlag inv eb ec) (edgeRead (G1 b) eb) := by
    rw [g2c, edgeRead_edgeWrite]
  have r2d : edgeRead (G2 d) ed = condRev (invFlag inv ec ed) (edgeRead (G1 c) ec) := by
    rw [g2d, edgeRead_edgeWrite]
  have r3a : edgeRead (G3 a) ea = condRev (invFlag inv ed ea) (edgeRead (G2 d) ed) := by
    rw [g3a, edgeRead_edgeWrite]
  have r3b : edgeRead (G3 b) eb = condRev (invFlag inv ea eb) (edgeRead (G2 a) ea) := by
    rw [g3b, edgeRead_edgeWrite]
  have r3c : edgeRead (G3 c) ec = condRev (invFlag inv eb ec) (edgeRead (G2 b) eb) := by
    rw [g3c, edgeRead_edgeWrite]
  have r3d : edgeRead (G3 d) ed = condRev (invFlag inv ec ed) (edgeRead (G2 c) ec) := by
    rw [g3d, edgeRead_edgeWrite]
  funext f
  by_cases hfa : f = a
  · rw [hfa, cycleResult_a inv G3 side a b c d ea eb ec ed rotfn, r3d, r2c, r1b,
      condRev_condRev, condRev_condRev, condRev_condRev, hA, condRev_false,
      g3a, g2a, g1a, edgeWrite_edgeWrite, edgeWrite_edgeWrite, edgeWrite_edgeWrite,
      edgeWrite_edgeRead]
  by_cases hfb : f = b
  · rw [hfb, cycleResult_b inv G3 side a b c d ea eb ec ed rotfn (Ne.symm hab),
      r3a, r2d, r1c,
      condRev_condRev, condRev_condRev, condRev_condRev, hB, condRev_false,
      g3b, g2b, g1b, edgeWrite_edgeWrite, edgeWrite_edgeWrite, edgeWrite_edgeWrite,
      edgeWrite_edgeRead]
  by_cases hfc : f = c
  · rw [hfc, cycleResult_c inv G3 side a b c d ea eb ec ed rotfn (Ne.symm hac)
        (Ne.symm hbc),
      r3b, r2a, r1d,
      condRev_condRev, condRev_condRev, condRev_condRev, hC, condRev_false,
      g3c, g2c, g1c, edgeWrite_edgeWrite, edgeWrite_edgeWrite, edgeWrite_edgeWrite,
      edgeWrite_edgeRead]
  by_cases hfd : f = d
  · rw [hfd, cycleResult_d inv G3 side a b c d ea eb ec ed rotfn (Ne.symm had)
        (Ne.symm hbd) (Ne.symm hcd),
      r3c, r2b, r1a,
      condRev_condRev, condRev_condRev, condRev_condRev, hD, condRev_false,
      g3d, g2d, g1d, edgeWrite_edgeWrite, edgeWrite_edgeWrite, edgeWrite_edgeWrite,
      edgeWrite_edgeRead]
  by_cases hfs : f = side
  · rw [hfs, cycleResult_side inv G3 side a b c d ea eb ec ed rotfn hsa hsb hsc hsd,
      g3s, g2s, g1s, h4]
  · rw [cycleResult_other inv G3 side a b c d ea eb ec ed rotfn f hfa hfb hfc hfd hfs,
      hG3, cycleResult_other inv G2 side a b c d ea eb ec ed rotfn f hfa hfb hfc hfd hfs,
      hG2, cycleResult_other inv G1 side a b c d ea eb ec ed rotfn f hfa hfb hfc hfd hfs,
      hG1, cycleResult_other inv cube side a b c d ea eb ec ed rotfn f hfa hfb hfc hfd hfs]

/-! ### Instantiating the cycle lemmas for `rotateGen` -/

theorem rotateGen_round_di {n : ℕ} (inv : List (Edge × Edge)) (side a b c d : Fin 6)
    (ea eb ec ed : Edge) (cube : Cube n)
    (hd : side ≠ a ∧ side ≠ b ∧ side ≠ c ∧ side ≠ d ∧ a ≠ b ∧ a ≠ c ∧ a ≠ d ∧
      b ≠ c ∧ b ≠ d ∧ c ≠ d)
    (hs : invFlag inv ea eb = invFlag inv eb ea ∧
      invFlag inv eb ec = invFlag inv ec eb ∧
      invFlag inv ec ed = invFlag inv ed ec ∧
      invFlag inv ed ea = invFlag inv ea ed) :
    rotateGen ⟨[a, b, c, d, a], [ea, eb, ec, ed, ea], inv⟩ side Direction.i
      (rotateGen ⟨[a, b, c, d, a], [ea, eb, ec, ed, ea], inv⟩ side Direction.d cube)
      = cube := by
  obtain ⟨hsa, hsb, hsc, hsd, hab, hac, had, hbc, hbd, hcd⟩ := hd
  obtain ⟨s1, s2, s3, s4⟩ := hs
  rw [rotateGen_eq_d inv side a b c d ea eb ec ed cube hsa hsb hsc hsd hab hac had
    hbc hbd hcd,
    rotateGen_eq_i inv side a b c d ea eb ec ed _ hsa hsb hsc hsd hab hac had
    hbc hbd hcd]
  exact cycle_roundtrip inv cube side a b c d ea eb ec ed rot90 rot270
    (rot270_rot90 _) hsa hsb hsc hsd hab hac had hbc hbd hcd s1 s2 s3 s4

theorem rotateGen_round_id {n : ℕ} (inv : List (Edge × Edge)) (side a b c d : Fin 6)
    (ea eb ec ed : Edge) (cube : Cube n)
    (hd : side ≠ a ∧ side ≠ b ∧ side ≠ c ∧ side ≠ d ∧ a ≠ b ∧ a ≠ c ∧ a ≠ d ∧
      b ≠ c ∧ b ≠ d ∧ c ≠ d)
    (hs : invFlag inv ea eb = invFlag inv eb ea ∧
      invFlag inv eb ec = invFlag inv ec eb ∧
      invFlag inv ec ed = invFlag inv ed ec ∧
      invFlag inv ed ea = invFlag inv ea ed) :
    rotateGen ⟨[a, b, c, d, a], [ea, eb, ec, ed, ea], inv⟩ side Direction.d
      (rotateGen ⟨[a, b, c, d, a], [ea, eb, ec, ed, ea], inv⟩ side Direction.i cube)
      = cube := by
  obtain ⟨hsa, hsb, hsc, hsd, hab, hac, had, hbc, hbd, hcd⟩ := hd
  obtain ⟨s1, s2, s3, s4⟩ := hs
  rw [rotateGen_eq_i inv side a b c d ea eb ec ed cube hsa hsb hsc hsd hab hac had
    hbc hbd hcd,
    rotateGen_eq_d inv side a b c d ea eb ec ed _ hsa hsb hsc hsd hab hac had
    hbc hbd hcd]
  exact cycle_roundtrip inv cube side a d c b ea ed ec eb rot270 rot90
    (rot90_rot270 _) hsa hsd hsc hsb had hac hab (Ne.symm hcd) (Ne.symm hbd)
    (Ne.symm hbc) s4.symm s3.symm s2.symm s1.symm

theorem rotateGen_four_d {n : ℕ} (inv : List (Edge × Edge)) (side a b c d : Fin 6)
    (ea eb ec ed : Edge) (cube : Cube n)
    (hd : side ≠ a ∧ side ≠ b ∧ side ≠ c ∧ side ≠ d ∧ a ≠ b ∧ a ≠ c ∧ a ≠ d ∧
      b ≠ c ∧ b ≠ d ∧ c ≠ d)
    (hx : Bool.xor (invFlag inv ea eb) (Bool.xor (invFlag inv eb ec)
      (Bool.xor (invFlag inv ec ed) (invFlag inv ed ea))) = false) :
    rotateGen ⟨[a, b, c, d, a], [ea, eb, ec, ed, ea], inv⟩ side Direction.d
      (rotateGen ⟨[a, b, c, d, a], [ea, eb, ec, ed, ea], inv⟩ side Direction.d
        (rotateGen ⟨[a, b, c, d, a], [ea, eb, ec, ed, ea], inv⟩ side Direction.d
          (rotateGen ⟨[a, b, c, d, a], [ea, eb, ec, ed, ea], inv⟩ side Direction.d
            cube))) = cube := by
  obtain ⟨hsa, hsb, hsc, hsd, hab, hac, had, hbc, hbd, hcd⟩ := hd
  rw [rotateGen_eq_d inv side a b c d ea eb ec ed _ hsa hsb hsc hsd hab hac had
    hbc hbd hcd,
    rotateGen_eq_d inv side a b c d ea eb ec ed _ hsa hsb hsc hsd hab hac had
    hbc hbd hcd,
    rotateGen_eq_d inv side a b c d ea eb ec ed _ hsa hsb hsc hsd hab hac had
    hbc hbd hcd,
    rotateGen_eq_d inv side a b c d ea eb ec ed _ hsa hsb hsc hsd hab hac had
    hbc hbd hcd]
  exact cycle_four inv cube side a b c d ea eb ec ed rot90 (rot90_four _)
    hsa hsb hsc hsd hab hac had hbc hbd hcd hx

theorem rotateGen_four_i {n : ℕ} (inv : List (Edge × Edge)) (side a b c d : Fin 6)
    (ea eb ec ed : Edge) (cube : Cube n)
    (hd : side ≠ a ∧ side ≠ b ∧ side ≠ c ∧ side ≠ d ∧ a ≠ b ∧ a ≠ c ∧ a ≠ d ∧
      b ≠ c ∧ b ≠ d ∧ c ≠ d)
    (hx : Bool.xor (invFlag inv ea ed) (Bool.xor (invFlag inv ed ec)
      (Bool.xor (invFlag inv ec eb) (invFlag inv eb ea))) = false) :
    rotateGen ⟨[a, b, c, d, a], [ea, eb, ec, ed, ea], inv⟩ side Direction.i
      (rotateGen ⟨[a, b, c, d, a], [ea, eb, ec, ed, ea], inv⟩ side Direction.i
        (rotateGen ⟨[a, b, c, d, a], [ea, eb, ec, ed, ea], inv⟩ side Direction.i
          (rotateGen ⟨[a, b, c, d, a], [ea, eb, ec, ed, ea], inv⟩ side Direction.i
            cube))) = cube := by
  obtain ⟨hsa, hsb, hsc, hsd, hab, hac, had, hbc, hbd, hcd⟩ := hd
  rw [rotateGen_eq_i inv side a b c d ea eb ec ed _ hsa hsb hsc hsd hab hac had
    hbc hbd hcd,
    rotateGen_eq_i inv side a b c d ea eb ec ed _ hsa hsb hsc hsd hab hac had
    hbc hbd hcd,
    rotateGen_eq_i inv side a b c d ea eb ec ed _ hsa hsb hsc hsd hab hac had
    hbc hbd hcd,
    rotateGen_eq_i inv side a b c d ea eb ec ed _ hsa hsb hsc hsd hab hac had
    hbc hbd hcd]
  exact cycle_four inv cube side a d c b ea ed ec eb rot270 (rot270_four _)
    hsa hsd hsc hsb had hac hab (Ne.symm hcd) (Ne.symm hbd) (Ne.symm hbc) hx

/-! ### The engine-level laws, one case per configured move -/

set_option maxHeartbeats 1000000 in
theorem round_trip_rotate {n : ℕ} (cube : Cube n) (act : RubiksAction) :
    rotate (rotate cube act) (get_inverse_action act) = cube := by
  obtain ⟨s, dir⟩ := act
  cases dir with
  | d =>
      fin_cases s <;>
        exact rotateGen_round_di _ _ _ _ _ _ _ _ _ _ cube (by decide) (by decide)
  | i =>
      fin_cases s <;>
        exact rotateGen_round_id _ _ _ _ _ _ _ _ _ _ cube (by decide) (by decide)

set_option maxHeartbeats 1000000 in
theorem four_times_rotate {n : ℕ} (cube : Cube n) (act : RubiksAction) :
    rotate (rotate (rotate (rotate cube act) act) act) act = cube := by
  obtain ⟨s, dir⟩ := act
  cases dir with
  | d =>
      fin_cases s <;>
        exact rotateGen_four_d _ _ _ _ _ _ _ _ _ _ cube (by decide) (by decide)
  | i =>
      fin_cases s <;>
        exact rotateGen_four_i _ _ _ _ _ _ _ _ _ _ cube (by decide) (by decide)

/-! ### Reward and solved predicate -/

theorem get_reward_solved (n : ℕ) : get_reward (construct_cube n) = 1 := by
  unfold get_reward
  exact if_pos (fun f i j => rfl)

theorem get_reward_neg {n : ℕ} (cube : Cube n) (f : Fin 6) (i j : Fin (n + 1))
    (h : cube f i j ≠ (f.val : ℕ)) : get_reward cube = -1 := by
  unfold get_reward
  exact if_neg (fun hall => h (hall f i j))

theorem reward_dichotomy {n : ℕ} (cube : Cube n) :
    (get_reward cube = 1 ∧ is_resolved cube = true) ∨
      (get_reward cube = -1 ∧ is_resolved cube = false) := by
  by_cases hall : ∀ (f : Fin 6) (a b : Fin (n + 1)), cube f a b = (f.val : ℕ)
  · left
    have h1 : get_reward cube = 1 := by
      unfold get_reward
      exact if_pos hall
    exact ⟨h1, by unfold is_resolved; rw [h1]; rfl⟩
  · right
    have h1 : get_reward cube = -1 := by
      unfold get_reward
      exact if_neg hall
    refine ⟨h1, by unfold is_resolved; rw [h1]; rfl⟩

theorem is_resolved_solved (n : ℕ) : is_resolved (construct_cube n) = true := by
  unfold is_resolved
  rw [get_reward_solved]
  rfl

theorem is_resolved_iff {n : ℕ} (cube : Cube n) :
    is_resolved cube = true ↔ ∀ (f : Fin 6) (a b : Fin (n + 1)), cube f a b = (f.val : ℕ) := by
  constructor
  · intro h hf
    by_contra hno
    have h1 : get_reward cube = -1 := by
      unfold get_reward
      exact if_neg (fun hall => hno (fun a b => hall hf a b))
    unfold is_resolved at h
    rw [h1] at h
    exact absurd h (by decide)
  · intro hall
    unfold is_resolved get_reward
    rw [if_pos hall]
    rfl

theorem cycle_unsolved {n : ℕ} (inv : List (Edge × Edge)) (side a b c d : Fin 6)
    (ea eb ec ed : Edge) (rotfn : Grid n → Grid n) (hba : b ≠ a) :
    get_reward (cycleResult inv (construct_cube n) side a b c d ea eb ec ed rotfn)
      = -1 := by
  apply get_reward_neg _ b (ecRow n eb) (ecCol n eb)
  rw [cycleResult_b inv (construct_cube n) side a b c d ea eb ec ed rotfn hba]
  rw [show construct_cube n a = ((fun _ _ => (a.val : ℕ)) : Grid n) from rfl,
    show construct_cube n b = ((fun _ _ => (b.val : ℕ)) : Grid n) from rfl,
    edgeRead_const, condRev_const, edgeWrite_cell]
  exact fun h => hba (Fin.ext h.symm)

theorem rotateGen_unsolved_d {n : ℕ} (inv : List (Edge × Edge)) (side a b c d : Fin 6)
    (ea eb ec ed : Edge)
    (hd : side ≠ a ∧ side ≠ b ∧ side ≠ c ∧ side ≠ d ∧ a ≠ b ∧ a ≠ c ∧ a ≠ d ∧
      b ≠ c ∧ b ≠ d ∧ c ≠ d) :
    get_reward (rotateGen ⟨[a, b, c, d, a], [ea, eb, ec, ed, ea], inv⟩ side
      Direction.d (construct_cube n)) = -1 := by
  obtain ⟨hsa, hsb, hsc, hsd, hab, hac, had, hbc, hbd, hcd⟩ := hd
  rw [rotateGen_eq_d inv side a b c d ea eb ec ed (construct_cube n) hsa hsb hsc hsd
    hab hac had hbc hbd hcd]
  exact cycle_unsolved inv side a b c d ea eb ec ed rot90 (Ne.symm hab)

theorem rotateGen_unsolved_i {n : ℕ} (inv : List (Edge × Edge)) (side a b c d : Fin 6)
    (ea eb ec ed : Edge)
    (hd : side ≠ a ∧ side ≠ b ∧ side ≠ c ∧ side ≠ d ∧ a ≠ b ∧ a ≠ c ∧ a ≠ d ∧
      b ≠ c ∧ b ≠ d ∧ c ≠ d) :
    get_reward (rotateGen ⟨[a, b, c, d, a], [ea, eb, ec, ed, ea], inv⟩ side
      Direction.i (construct_cube n)) = -1 := by
  obtain ⟨hsa, hsb, hsc, hsd, hab, hac, had, hbc, hbd, hcd⟩ := hd
  rw [rotateGen_eq_i inv side a b c d ea eb ec ed (construct_cube n) hsa hsb hsc hsd
    hab hac had hbc hbd hcd]
  exact cycle_unsolved inv side a d c b ea ed ec eb rot270 (Ne.symm had)

set_option maxHeartbeats 1000000 in
theorem rotate_solved_reward {n : ℕ} (act : RubiksAction) :
    get_reward (rotate (construct_cube n) act) = -1 := by
  obtain ⟨s, dir⟩ := act
  cases dir with
  | d => fin_cases s <;> exact rotateGen_unsolved_d _ _ _ _ _ _ _ _ _ _ (by decide)
  | i => fin_cases s <;> exact rotateGen_unsolved_i _ _ _ _ _ _ _ _ _ _ (by decide)

theorem rotate_solved_not_resolved {n : ℕ} (act : RubiksAction) :
    is_resolved (rotate (construct_cube n) act) = false := by
  rcases reward_dichotomy (rotate (construct_cube n) act) with ⟨h1, _⟩ | ⟨_, h2⟩
  · rw [rotate_solved_reward act] at h1
    exact absurd h1 (by decide)
  · exact h2

/-! ### `_rotate` only relocates cells: naturality in the color values -/

theorem rotate_helper_map {n : ℕ} (g : ℕ → ℕ) (dir : Direction) (m : Grid n) :
    rotate_helper dir (mapGrid g m) = mapGrid g (rotate_helper dir m) := by
  cases dir <;> rfl

theorem edgeRead_map {n : ℕ} (g : ℕ → ℕ) (m : Grid n) (e : Edge) :
    edgeRead (mapGrid g m) e = mapStrip g (edgeRead m e) := by
  cases e <;> rfl

theorem condRev_map {n : ℕ} (g : ℕ → ℕ) (fl : Bool) (v : Strip n) :
    condRev fl (mapStrip g v) = mapStrip g (condRev fl v) := by
  cases fl <;> rfl

theorem edgeWrite_map {n : ℕ} (g : ℕ → ℕ) (m : Grid n) (e : Edge) (v : Strip n) :
    edgeWrite (mapGrid g m) e (mapStrip g v) = mapGrid g (edgeWrite m e v) := by
  cases e <;> funext a b <;> simp only [edgeWrite, mapGrid, mapStrip] <;>
    split <;> simp_all

theorem getD_map {n : ℕ} (g : ℕ → ℕ) (input : Option (Strip n)) (s : Strip n) :
    (input.map (mapStrip g)).getD (mapStrip g s) = mapStrip g (input.getD s) := by
  cases input <;> rfl

theorem mapCube_apply {n : ℕ} (g : ℕ → ℕ) (cube : Cube n) (f : Fin 6) :
    mapCube g cube f = mapGrid g (cube f) := rfl

theorem update_map {n : ℕ} (g : ℕ → ℕ) (cube : Cube n) (x : Fin 6) (m : Grid n) :
    Function.update (mapCube g cube) x (mapGrid g m)
      = mapCube g (Function.update cube x m) := by
  funext f
  by_cases h : f = x
  · rw [h, Function.update_same, mapCube_apply, Function.update_same]
  · rw [Function.update_noteq h, mapCube_apply, mapCube_apply,
      Function.update_noteq h]

theorem edge_walk_map {n : ℕ} (g : ℕ → ℕ) (inv : List (Edge × Edge)) :
    ∀ (l : List (Fin 6 × Edge)) (cube : Cube n) (input : Option (Strip n)),
      edge_walk inv (mapCube g cube) l (input.map (mapStrip g))
        = mapCube g (edge_walk inv cube l input)
  | [], cube, input => rfl
  | [x], cube, input => by
      obtain ⟨a, ea⟩ := x
      rfl
  | (a, ea) :: (b, eb) :: rest, cube, input => by
      rw [edge_walk_cons, edge_walk_cons, mapCube_apply, mapCube_apply,
        edgeRead_map, edgeRead_map, getD_map, condRev_map, edgeWrite_map,
        update_map,
        show some (mapStrip g (edgeRead (cube b) eb))
          = Option.map (mapStrip g) (some (edgeRead (cube b) eb)) from rfl]
      exact edge_walk_map g inv ((b, eb) :: rest) _ _

theorem rotateGen_map {n : ℕ} (g : ℕ → ℕ) (conn : Connexion) (side : Fin 6)
    (dir : Direction) (cube : Cube n) :
    rotateGen conn side dir (mapCube g cube) = mapCube g (rotateGen conn side dir cube) := by
  unfold rotateGen
  rw [mapCube_apply, rotate_helper_map, update_map]
  exact edge_walk_map g conn.inversions _ _ none

theorem rotate_map {n : ℕ} (g : ℕ → ℕ) (cube : Cube n) (act : RubiksAction) :
    rotate (mapCube g cube) act = mapCube g (rotate cube act) :=
  rotateGen_map g (connexions act.side) act.side act.direction cube

theorem decode_encode (n : ℕ) (p : Fin 6 × Fin (n + 1) × Fin (n + 1)) :
    decodePos n (encodePos n p) = p := by
  obtain ⟨f, i, j⟩ := p
  have hdiv : (f.val + 6 * (i.val + (n + 1) * j.val)) / 6 = i.val + (n + 1) * j.val := by
    rw [Nat.add_mul_div_left _ _ (by omega : 0 < 6), Nat.div_eq_of_lt f.isLt,
      Nat.zero_add]
  refine Prod.ext ?_ (Prod.ext ?_ ?_)
  · apply Fin.ext
    show (encodePos n (f, i, j)) % 6 = f.val
    unfold encodePos
    rw [Nat.add_mul_mod_self_left, Nat.mod_eq_of_lt f.isLt]
  · apply Fin.ext
    show (encodePos n (f, i, j)) / 6 % (n + 1) = i.val
    unfold encodePos
    rw [hdiv, Nat.add_mul_mod_self_left, Nat.mod_eq_of_lt i.isLt]
  · apply Fin.ext
    show (encodePos n (f, i, j)) / 6 / (n + 1) % (n + 1) = j.val
    unfold encodePos
    rw [hdiv, Nat.add_mul_div_left _ _ (Nat.succ_pos n), Nat.div_eq_of_lt i.isLt,
      Nat.zero_add, Nat.mod_eq_of_lt j.isLt]

theorem rotate_pointwise {n : ℕ} (cube : Cube n) (act : RubiksAction)
    (p : Fin 6 × Fin (n + 1) × Fin (n + 1)) :
    rotate cube act p.1 p.2.1 p.2.2
      = cube (sigmaAct n act p).1 (sigmaAct n act p).2.1 (sigmaAct n act p).2.2 := by
  have hmc :
      mapCube (fun k =>
        cube (decodePos n k).1 (decodePos n k).2.1 (decodePos n k).2.2)
        (posCube n) = cube := by
    funext f' a' b'
    show cube (decodePos n (encodePos n (f', a', b'))).1
        (decodePos n (encodePos n (f', a', b'))).2.1
        (decodePos n (encodePos n (f', a', b'))).2.2 = cube f' a' b'
    rw [decode_encode]
  conv_lhs => rw [← hmc]
  rw [rotate_map]
  rfl

theorem inverse_inverse (act : RubiksAction) :
    get_inverse_action (get_inverse_action act) = act := by
  obtain ⟨s, dir⟩ := act
  cases dir <;> rfl

theorem sigma_right_inverse {n : ℕ} (act : RubiksAction)
    (p : Fin 6 × Fin (n + 1) × Fin (n + 1)) :
    sigmaAct n act (sigmaAct n (get_inverse_action act) p) = p := by
  have key : ∀ (cube : Cube n) (q : Fin 6 × Fin (n + 1) × Fin (n + 1)),
      cube q.1 q.2.1 q.2.2
        = cube (sigmaAct n act (sigmaAct n (get_inverse_action act) q)).1
            (sigmaAct n act (sigmaAct n (get_inverse_action act) q)).2.1
            (sigmaAct n act (sigmaAct n (get_inverse_action act) q)).2.2 := by
    intro cube q
    have h1 := round_trip_rotate cube act
    calc cube q.1 q.2.1 q.2.2
        = rotate (rotate cube act) (get_inverse_action act) q.1 q.2.1 q.2.2 := by
          rw [h1]
      _ = rotate cube act (sigmaAct n (get_inverse_action act) q).1
            (sigmaAct n (get_inverse_action act) q).2.1
            (sigmaAct n (get_inverse_action act) q).2.2 :=
          rotate_pointwise (rotate cube act) (get_inverse_action act) q
      _ = _ := rotate_pointwise cube act _
  have h2 := key (posCube n) p
  have h3 : encodePos n p
      = encodePos n (sigmaAct n act (sigmaAct n (get_inverse_action act) p)) := h2
  have h4 := congrArg (decodePos n) h3
  rw [decode_encode, decode_encode] at h4
  exact h4.symm

theorem sigma_left_inverse {n : ℕ} (act : RubiksAction)
    (p : Fin 6 × Fin (n + 1) × Fin (n + 1)) :
    sigmaAct n (get_inverse_action act) (sigmaAct n act p) = p := by
  have h := sigma_right_inverse (get_inverse_action act) p
  rw [inverse_inverse] at h
  exact h

theorem sigma_univ_perm {n : ℕ} (act : RubiksAction) :
    (Finset.univ : Finset (Fin 6 × Fin (n + 1) × Fin (n + 1))).val.map
      (sigmaAct n act)
      = (Finset.univ : Finset (Fin 6 × Fin (n + 1) × Fin (n + 1))).val := by
  have h := Multiset.map_univ_val_equiv
    (⟨sigmaAct n act, sigmaAct n (get_inverse_action act),
      fun p => sigma_left_inverse act p, fun p => sigma_right_inverse act p⟩ :
      (Fin 6 × Fin (n + 1) × Fin (n + 1)) ≃ (Fin 6 × Fin (n + 1) × Fin (n + 1)))
  simpa using h

theorem cells_rotate {n : ℕ} (cube : Cube n) (act : RubiksAction) :
    cells (rotate cube act) = cells cube := by
  unfold cells
  calc (Finset.univ : Finset (Fin 6 × Fin (n + 1) × Fin (n + 1))).val.map
        (fun p => rotate cube act p.1 p.2.1 p.2.2)
      = (Finset.univ : Finset (Fin 6 × Fin (n + 1) × Fin (n + 1))).val.map
          ((fun q => cube q.1 q.2.1 q.2.2) ∘ sigmaAct n act) :=
        Multiset.map_congr rfl (fun p _ => rotate_pointwise cube act p)
    _ = ((Finset.univ : Finset (Fin 6 × Fin (n + 1) × Fin (n + 1))).val.map
          (sigmaAct n act)).map (fun q => cube q.1 q.2.1 q.2.2) := by
        rw [Multiset.map_map]
    _ = (Finset.univ : Finset (Fin 6 × Fin (n + 1) × Fin (n + 1))).val.map
          (fun q => cube q.1 q.2.1 q.2.2) := by
        rw [sigma_univ_perm]

/-! ### Shuffle and reset bookkeeping -/

theorem shuffle_cube_counter {n : ℕ} :
    ∀ (moves : List RubiksAction) (s : RubiksCube n), moves ≠ [] →
      (shuffle_cube s moves).counter = 0
  | [], _, h => absurd rfl h
  | m :: rest, s, _ => by
      rw [show shuffle_cube s (m :: rest)
        = shuffle_cube ⟨rotate s.cube m, 0⟩ rest from rfl]
      by_cases hr : rest = []
      · rw [hr]
        rfl
      · exact shuffle_cube_counter rest _ hr

/-! ### The claims -/

/-- C1: for every legal move (any configured face, either direction) and every
cube state, applying the move and then its inverse (same face, direction
flipped by `get_inverse_action`) restores exactly the original state, for
every grid dimension `dim = n + 1 ≥ 1`. -/
theorem claim_c1_round_trip :
    ∀ (n : ℕ) (cube : Cube n) (act : RubiksAction),
      rotate (rotate cube act) (get_inverse_action act) = cube :=
  fun _ cube act => round_trip_rotate cube act

/-- C3: every move only relocates cells: the multiset of colors over all
cells of all 6 faces is unchanged by `_rotate`, for every state and every
grid dimension. -/
theorem claim_c3_conservation :
    ∀ (n : ℕ) (cube : Cube n) (act : RubiksAction),
      cells (rotate cube act) = cells cube :=
  fun _ cube act => cells_rotate cube act

/-- C5: applying the same move (same face, same direction) four consecutive
times returns the whole cube state — the rotated face's grid and all
neighbor strips — to its original value, for every state and dimension. -/
theorem claim_c5_four_times :
    ∀ (n : ℕ) (cube : Cube n) (act : RubiksAction),
      rotate (rotate (rotate (rotate cube act) act) act) act = cube :=
  fun _ cube act => four_times_rotate cube act

/-- C4: a freshly constructed cube is solved with reward `+1`; after exactly
one legal move the state is not solved and the reward is `-1` (proved here
for every `dim = n + 1 ≥ 1`, which covers the claim's `dim ≥ 2`); the reward
is always exactly `+1` when solved and `-1` otherwise, never any other
value, where solved means every cell of face `i` holds color `i`. -/
theorem claim_c4_solved_reward :
    ∀ (n : ℕ),
      is_resolved (construct_cube n) = true ∧
      get_reward (construct_cube n) = 1 ∧
      (∀ act : RubiksAction,
        is_resolved (rotate (construct_cube n) act) = false ∧
        get_reward (rotate (construct_cube n) act) = -1) ∧
      (∀ cube : Cube n,
        (get_reward cube = 1 ∧ is_resolved cube = true) ∨
        (get_reward cube = -1 ∧ is_resolved cube = false)) ∧
      (∀ cube : Cube n, is_resolved cube = true ↔
        ∀ (f : Fin 6) (a b : Fin (n + 1)), cube f a b = (f.val : ℕ)) :=
  fun n =>
    ⟨is_resolved_solved n, get_reward_solved n,
     fun act => ⟨rotate_solved_not_resolved act, rotate_solved_reward act⟩,
     fun cube => reward_dichotomy cube,
     fun cube => is_resolved_iff cube⟩

/-- C2 (counterexample): at grid dimension 2 the claim fails — inferring the
move that produced `apply(s0, m)` from the solved state does not return `m`
(and a fortiori the inference never "returns NotFound rather than raising"
there): the per-candidate engine copy `RubiksCube(cube=rubiks_1.cube)` is
constructed with the default `dim=3`, its shape check rejects the
`(6, 2, 2)` array leaving `self.cube` unset, and the first `step` raises
`AttributeError`. -/
theorem claim_c2_counterexample :
    get_action_from_two_states (construct_cube 1)
      (rotate (construct_cube 1) ⟨0, Direction.d⟩)
      = Except.error "AttributeError" := rfl

/-- C2 (amended): at the constructor-default grid dimension 3, inference from
`(s0, apply(s0, m))` returns `m` for every legal move `m`; the candidates are
tried in the fixed face-major, direction-minor declaration order of
`product(sides, directions)`; when no legal move maps the first state to the
second, `None` is returned without raising; at every other grid dimension the
inference raises `AttributeError` instead, because the per-candidate engine
copy is constructed with the default `dim=3` and fails its shape check. -/
theorem claim_c2_inference :
    (∀ act : RubiksAction,
      get_action_from_two_states (construct_cube 2) (rotate (construct_cube 2) act)
        = Except.ok (some act)) ∧
    actionsList = [⟨0, Direction.d⟩, ⟨0, Direction.i⟩, ⟨1, Direction.d⟩,
      ⟨1, Direction.i⟩, ⟨2, Direction.d⟩, ⟨2, Direction.i⟩, ⟨3, Direction.d⟩,
      ⟨3, Direction.i⟩, ⟨4, Direction.d⟩, ⟨4, Direction.i⟩, ⟨5, Direction.d⟩,
      ⟨5, Direction.i⟩] ∧
    (∀ s1 s2 : Cube 2, (∀ act : RubiksAction, rotate s1 act ≠ s2) →
      get_action_from_two_states s1 s2 = Except.ok none) ∧
    (∀ (m : ℕ) (s1 s2 : Cube m), m ≠ 2 →
      get_action_from_two_states s1 s2 = Except.error "AttributeError") := by
  refine ⟨by decide, by decide, ?_, ?_⟩
  · intro s1 s2 h
    unfold get_action_from_two_states
    rw [if_pos rfl]
    refine congrArg Except.ok (List.find?_eq_none.mpr fun act _ => ?_)
    simp [h act]
  · intro m s1 s2 hm
    unfold get_action_from_two_states
    rw [if_neg]
    omega

/-- C2 (witness): a no-match inference at dimension 3 returns `None`
(`Except.ok none`), and an inference at dimension 1 raises. -/
theorem claim_c2_witness :
    get_action_from_two_states (construct_cube 2) ((fun _ _ _ => 0) : Cube 2)
      = Except.ok none ∧
    get_action_from_two_states (construct_cube 0) (construct_cube 0)
      = Except.error "AttributeError" :=
  ⟨claim_c2_inference.2.2.1 (construct_cube 2) (fun _ _ _ => 0) (by decide),
   claim_c2_inference.2.2.2 0 (construct_cube 0) (construct_cube 0) (by decide)⟩

/-- C6 (counterexample): `reset(shuffle=False)` does not reset the move
counter — the source's `reset` never touches `self.counter`; a counter of
`1` survives the reset, contradicting "the move counter has been reset
to 0". -/
theorem claim_c6_counterexample :
    (reset (⟨construct_cube 0, 1⟩ : RubiksCube 0) false []).counter = 1 ∧
    ¬ (reset (⟨construct_cube 0, 1⟩ : RubiksCube 0) false []).counter = 0 :=
  ⟨rfl, by decide⟩

/-- C6 (amended): `reset(shuffle=False)` restores the canonical solved state
and leaves the move counter at its previous value (it is not reset);
`reset(shuffle=True)` shuffles the rebuilt solved cube and, provided at
least one shuffle move is applied (the source default is 100), leaves the
counter at 0, because `shuffle_cube` zeroes the counter after every
move. -/
theorem claim_c6_reset :
    ∀ (n : ℕ) (s : RubiksCube n) (moves : List RubiksAction),
      (reset s false moves).cube = construct_cube n ∧
      (reset s false moves).counter = s.counter ∧
      reset s true moves = shuffle_cube ⟨construct_cube n, s.counter⟩ moves ∧
      (moves ≠ [] → (reset s true moves).counter = 0) :=
  fun n s moves =>
    ⟨rfl, rfl, rfl, fun h => shuffle_cube_counter moves ⟨construct_cube n, s.counter⟩ h⟩

/-- C6 (witness): a shuffled reset with one shuffle move ends with counter
0. -/
theorem claim_c6_witness :
    (reset (⟨construct_cube 0, 5⟩ : RubiksCube 0) true [⟨0, Direction.d⟩]).counter = 0 :=
  (claim_c6_reset 0 ⟨construct_cube 0, 5⟩ [⟨0, Direction.d⟩]).2.2.2 (by decide)

/-- C7 (counterexample): `RubiksAction('xx')` does not fail with an
`InvalidMoveError` surfaced to the caller — the constructor returns
normally, having printed `'Unknown action!'` and stored `None` as the
action. -/
theorem claim_c7_counterexample :
    (mk_rubiks_action ['x', 'x']).action = none ∧
    load_action ['x', 'x'] = none := by
  constructor <;> decide

/-- C7 (amended): a two-character code whose first character is a configured
face symbol and whose second is a configured direction symbol parses to the
`(face, direction)` pair; every other code makes `_load_action` print
`'Unknown action!'` and yield a `None` action on the constructed object —
construction never raises. -/
theorem claim_c7_load_action :
    (∀ c1 c2 : Char, c1 ∈ sideSymbols → c2 ∈ directionSymbols →
      mk_rubiks_action [c1, c2] = ⟨some (c1, c2)⟩) ∧
    (∀ code : List Char,
      (∀ c1 c2 : Char, code = [c1, c2] → c1 ∈ sideSymbols →
        c2 ∈ directionSymbols → False) →
      mk_rubiks_action code = ⟨none⟩) := by
  constructor
  · intro c1 c2 h1 h2
    have hl : load_action [c1, c2] = some (c1, c2) := by
      show (if c1 ∈ sideSymbols ∧ c2 ∈ directionSymbols then some (c1, c2)
        else none) = some (c1, c2)
      rw [if_pos ⟨h1, h2⟩]
    exact congrArg RubiksActionRaw.mk hl
  · intro code h
    rcases code with _ | ⟨c1, _ | ⟨c2, _ | ⟨c3, rest⟩⟩⟩
    · rfl
    · rfl
    · have hl : load_action [c1, c2] = none := by
        show (if c1 ∈ sideSymbols ∧ c2 ∈ directionSymbols then some (c1, c2)
          else none) = none
        rw [if_neg]
        rintro ⟨m1, m2⟩
        exact h c1 c2 rfl m1 m2
      exact congrArg RubiksActionRaw.mk hl
    · rfl

/-- C7 (witness): the valid code `"Ud"` parses to its pair; the invalid code
`"UU"` (direction symbol not in the alphabet) yields a `None` action. -/
theorem claim_c7_witness :
    mk_rubiks_action ['U', 'd'] = ⟨some ('U', 'd')⟩ ∧
    mk_rubiks_action ['U', 'U'] = ⟨none⟩ := by
  refine ⟨claim_c7_load_action.1 'U' 'd' (by decide) (by decide),
    claim_c7_load_action.2 ['U', 'U'] ?_⟩
  intro c1 c2 heq m1 m2
  injection heq with e1 erest
  injection erest with e2 _
  rw [← e2] at m2
  exact absurd m2 (by decide)

/-- C8 (counterexample): an array whose shape is neither `(6, dim, dim)` nor
`(6, dim, dim, 6)` does not make construction fail with
`InvalidStateShapeError` — the constructor prints `'Incorrect cube format!'`
and returns normally with `self.cube` left unset (`none`). -/
theorem claim_c8_counterexample :
    init_cube_arg 3 ⟨[2], fun _ => 0⟩ = none := rfl

/-- C8 (amended): the `cube` argument dispatch of `RubiksCube.__init__`
stores a copy of a `(6, dim, dim)` array as-is, decodes a
`(6, dim, dim, 6)` one-hot array by taking the arg-max color index per cell
(`np.argmax` over the last axis), and for every other shape prints an error
and leaves the state unset (`none`) instead of raising. -/
theorem claim_c8_init :
    (∀ (dim : ℕ) (a : NDArray), a.shape = [6, dim, dim] →
      init_cube_arg dim a = some ⟨a.shape, a.item⟩) ∧
    (∀ (dim : ℕ) (a : NDArray), a.shape = [6, dim, dim, 6] →
      init_cube_arg dim a = some (from_one_hot_cube a)) ∧
    (∀ (dim : ℕ) (a : NDArray), a.shape ≠ [6, dim, dim] →
      a.shape ≠ [6, dim, dim, 6] → init_cube_arg dim a = none) ∧
    (∀ (a : NDArray) (idx : List ℕ),
      (from_one_hot_cube a).item idx
        = argmax6 (fun k => a.item (idx ++ [k.val]))) := by
  refine ⟨?_, ?_, ?_, fun a idx => rfl⟩
  · intro dim a h
    unfold init_cube_arg
    rw [if_pos h]
  · intro dim a h
    unfold init_cube_arg
    rw [h]
    simp
  · intro dim a h1 h2
    unfold init_cube_arg
    rw [if_neg h1, if_neg h2]

/-- C8 (witness): a raw `(6, 1, 1)` array is accepted as-is, a
`(6, 1, 1, 6)` one-hot array is arg-max decoded, and a bad shape yields
`none`. -/
theorem claim_c8_witness :
    init_cube_arg 1 ⟨[6, 1, 1], fun _ => 2⟩ = some ⟨[6, 1, 1], fun _ => 2⟩ ∧
    init_cube_arg 1 ⟨[6, 1, 1, 6], fun _ => 0⟩
      = some (from_one_hot_cube ⟨[6, 1, 1, 6], fun _ => 0⟩) ∧
    init_cube_arg 3 ⟨[6, 3], fun _ => 0⟩ = none :=
  ⟨claim_c8_init.1 1 ⟨[6, 1, 1], fun _ => 2⟩ rfl,
   claim_c8_init.2.1 1 ⟨[6, 1, 1, 6], fun _ => 0⟩ rfl,
   claim_c8_init.2.2.1 3 ⟨[6, 3], fun _ => 0⟩ (by decide) (by decide)⟩

/-- C9: the same-type branch of `RubiksCube.__eq__` evaluates
`self.cube == other.cube`, which for numpy arrays is the ELEMENTWISE
comparison array — not a boolean. At the failing input (two freshly
constructed engines) the comparison evaluates to the all-`True`
`(6, dim, dim)` array (whose Python truth test raises `ValueError`), each
entry being the cell-wise equality; the claimed boolean `==` is never
produced. -/
theorem claim_c9_eq_elementwise :
    eq_elementwise (construct_cube 2) (construct_cube 2) = (fun _ _ _ => true) ∧
    eq_elementwise (construct_cube 2) (rotate (construct_cube 2) ⟨0, Direction.d⟩)
      ≠ (fun _ _ _ => true) ∧
    (∀ (n : ℕ) (c1 c2 : Cube n) (f : Fin 6) (a b : Fin (n + 1)),
      eq_elementwise c1 c2 f a b = true ↔ c1 f a b = c2 f a b) := by
  refine ⟨?_, by decide, ?_⟩
  · funext f a b
    simp [eq_elementwise]
  · intro n c1 c2 f a b
    simp [eq_elementwise]
